import Mathlib

set_option maxRecDepth 8000
set_option maxHeartbeats 1000000

/-
Verification of the Ars Magica 5th sheet generation module
(`Ars_Magica_5th/arm5_py_integration/__init__.py`).

The module is a build-time string generator: it assembles HTML table rows,
dice-roll macro strings and CSS color rules.  We embed the relevant
operations shallowly:

* Python `str.replace` is modelled by `Sreplace` (fuel-based scan,
  left-to-right, non-overlapping, exactly Python's semantics for a
  non-empty pattern).
* Python `str(n)` on a non-negative int is modelled by `natStr`
  (decimal numeral).
* The mutable function attributes `alert.numid` / `alert.strid` are
  modelled by explicit state passing (`AlertState`), and `raise
  ValueError` by `Except.error`.
* Python floats in the luma computation are modelled in two ways: by
  exact rationals (`lumaQ`), used for facts that only depend on strict
  comparisons, where rationals and doubles agree; and bit-exactly as
  IEEE-754 doubles (`lumaFloat`, dyadic rationals with 53-bit mantissas
  and round-to-nearest-even), used where the exact computed value
  matters.
* occurrence counting ("how many times does `<tr>` occur") is modelled by
  `countOcc`, which counts the positions at which the pattern starts.

The helper module `arm5_py_integration.helpers` (repeat_template, roll,
rolltemplate) and the external `markdown` library are not part of the
sources; definitions for them are modelled from the spec and marked as
such in their doc comments.
-/

namespace ArsMagica

/-! ### Generic string infrastructure -/

/-- Number of positions in `s` at which the pattern `t` starts. -/
def countOccAux (t : List Char) : List Char → Nat
  | [] => 0
  | c :: rest => (if t.isPrefixOf (c :: rest) then 1 else 0) + countOccAux t rest

/-- Occurrence count of `t` in `s` (as strings). -/
def countOcc (t s : String) : Nat := countOccAux t.data s.data

/-- Left-to-right, non-overlapping replacement of `pat` by `rep`;
the fuel is an upper bound on the number of scan steps. -/
def replaceFuel (pat rep : List Char) : Nat → List Char → List Char
  | _, [] => []
  | 0, s => s
  | fuel + 1, c :: rest =>
    if pat.isPrefixOf (c :: rest) then
      rep ++ replaceFuel pat rep fuel (rest.drop (pat.length - 1))
    else
      c :: replaceFuel pat rep fuel rest

/-- Model of Python `s.replace(pat, rep)` for a non-empty pattern. -/
def Sreplace (s pat rep : String) : String :=
  String.mk (replaceFuel pat.data rep.data s.data.length s.data)

/-- Plain concatenation of a list of strings. -/
def concatAll : List String → String
  | [] => ""
  | s :: rest => s ++ concatAll rest

/-- Model of Python `sep.join(strings)`. -/
def joinSep (sep : String) : List String → String
  | [] => ""
  | [s] => s
  | s :: rest => s ++ sep ++ joinSep sep rest

/-- Model of Python `str(n)` for a non-negative int: decimal digits,
most significant first; fuel-based so that it evaluates by `decide`. -/
def natStrAux : Nat → Nat → List Char → List Char
  | 0, _, acc => acc
  | fuel + 1, n, acc =>
    if n < 10 then Char.ofNat (48 + n % 10) :: acc
    else natStrAux fuel (n / 10) (Char.ofNat (48 + n % 10) :: acc)

/-- Decimal numeral of a natural number (Python `str(n)`). -/
def natStr (n : Nat) : String := String.mk (natStrAux (n + 1) n [])

/-- Value of a decimal digit string, with accumulator `a`. -/
def charsVal (a : Nat) : List Char → Nat
  | [] => a
  | c :: rest => charsVal (10 * a + (c.toNat - 48)) rest

/-- No occurrence of `t` starts inside `a` and ends inside `b`:
for every proper non-trivial split of `t`, its first part is not a
suffix of `a` together with its second part a prefix of `b`. -/
def spanFreeB (t a b : List Char) : Bool :=
  (List.range t.length).all fun k =>
    k == 0 || !((t.take k).isSuffixOf a && (t.drop k).isPrefixOf b)

/-- No occurrence of `t` crosses a junction of adjacent pieces. -/
def noCrossB (t : List Char) : List (List Char) → Bool
  | [] => true
  | p :: ps => spanFreeB t p ps.flatten && noCrossB t ps

/-! ### Spec-modelled helpers

The helper module `arm5_py_integration.helpers` is imported by the
source file but is not among the sources; the definitions below are
modelled from the spec. -/

/-- Modelled from the spec: the Template Repeater from the missing
`helpers` module. "given a template string with a placeholder token, and
a sequence of substitution values, produce the concatenation of the
template once per value, with all occurrences of the placeholder token
replaced by the corresponding value" (spec 4.1); the `rep_key` calling
convention matches the source call sites. -/
def repeat_template (template : String) (values : List String) (rep_key : String) : String :=
  concatAll (values.map fun v => Sreplace template rep_key v)

/-- Modelled from the spec: `roll` from the missing `helpers` module.
"compose nested textual macro expressions ... by joining a fixed ordered
list of sub-expressions with a separator" (spec 4.3). -/
def roll (parts : List String) : String := joinSep " + " parts

/-- A roll template has a simple-die and a stress-die variant. -/
structure RollTemplate where
  simple : String
  stress : String

/-- Modelled from the spec: `rolltemplate` from the missing `helpers`
module. "embedding the joined expression inside labeled \"roll template\"
wrapper strings" (spec 4.3); the `%(die)s` marker of the source call
sites is instantiated with the simple or the stress die. -/
def rolltemplate (name : String) (fields : List (String × String)) : RollTemplate :=
  let base :=
    "&\x7btemplate:" ++ name ++ "\x7d" ++
      concatAll (fields.map fun kv => " \x7b\x7b" ++ kv.1 ++ "=" ++ kv.2 ++ "\x7d\x7d")
  ⟨Sreplace base "%(die)s" "1d10", Sreplace base "%(die)s" "1d10!"⟩

/-! ### The alert banner helper (source lines 42-98)

The function attributes `alert.numid` and `alert.strid` become an
explicit state record; `raise ValueError` becomes `Except.error`. -/

structure AlertState where
  numid : Nat
  strid : List String
deriving DecidableEq

/-- Model of Python `str.title` (uppercase a letter that does not follow
a letter, lowercase the others). -/
def pyTitleAux : Bool → List Char → List Char
  | _, [] => []
  | prevAlpha, c :: rest =>
    (if c.isAlpha then (if prevAlpha then c.toLower else c.toUpper) else c) ::
      pyTitleAux c.isAlpha rest

def pyTitle (s : String) : String := String.mk (pyTitleAux false s.data)

/-- The banner HTML from source lines 64-78.  The source composes an
inner indent of 16 spaces with `textwrap.dedent` stripping the 8-space
margin of the literal; the net effect (for inputs that do not break the
margin) is the dedented literal with the embedded text re-indented by
8 spaces, which is what we write here. -/
def alertHtml (level title alert_id text : String) : String :=
  "<input type=\"hidden\" class=\"alert-hidder\" name=\"attr_alert-" ++ alert_id ++
  "\" value=\"0\"/>\n<div class=\"alert alert-" ++ level ++
  "\">\n    <div>\n        <h3> " ++ pyTitle level ++ " - " ++ title ++
  "</h3>\n        " ++ Sreplace text "\n" "\n        " ++
  "\n    </div>\n    <label class=\"fakebutton\">\n        <input type=\"checkbox\" name=\"attr_alert-" ++
  alert_id ++ "\" value=\"1\" /> ×\n    </label>\n</div>"

/-- The `alert` helper (source lines 42-78): level check first, then ID
assignment (numeric counter for `ID=None`, recorded string otherwise),
then the banner HTML. -/
def alertF (title text level : String) (ID : Option String) (st : AlertState) :
    Except String (String × AlertState) :=
  if level ∈ (["info", "warning"] : List String) then
    match ID with
    | none =>
      Except.ok (alertHtml level title (natStr st.numid) text,
        ⟨st.numid + 1, st.strid⟩)
    | some s =>
      Except.ok (alertHtml level title s text, ⟨st.numid, st.strid ++ [s]⟩)
  else
    Except.error "Level must be among 'info', 'warning'"

/-- The id list `list(range(alert.numid)) + alert.strid` of source
line 90, with the numeric ids rendered in decimal as the f-string does. -/
def disableIds (st : AlertState) : List String :=
  (List.range st.numid).map natStr ++ st.strid

/-- `disable_old_alerts` (source lines 87-98); the 12-space inner indent
composed with the dedent of the 8-space margin leaves 4 spaces before
each entry. -/
def disable_old_alerts (marker : String) (st : AlertState) : String :=
  "setAttrs(\x7b\n    \"" ++ marker ++ "\": 1,\n    " ++
    joinSep ",\n    " ((disableIds st).map fun i => "\"alert-" ++ i ++ "\": 1") ++
    "\n\x7d); "

/-- One successful `alert` call as a state transformer (the HTML result
is discarded, a rejected call leaves the state unchanged). -/
def alertStep (st : AlertState) (c : Option String) : AlertState :=
  (((alertF "Title" "Body" "warning" c st).toOption).map Prod.snd).getD st

/-- A sequence of `alert` calls, each given by its optional explicit ID. -/
def runAlerts (cs : List (Option String)) (st : AlertState) : AlertState :=
  cs.foldl alertStep st

/-- Number of `ID=None` calls in a call sequence. -/
def countNone : List (Option String) → Nat
  | [] => 0
  | none :: cs => countNone cs + 1
  | some _ :: cs => countNone cs

/-- The explicit string IDs of a call sequence, in order. -/
def explicitIds : List (Option String) → List String
  | [] => []
  | none :: cs => explicitIds cs
  | some s :: cs => s :: explicitIds cs

/-- The banner IDs assigned by a call sequence starting from numeric
counter `n`, in call order. -/
def assignIds : Nat → List (Option String) → List String
  | _, [] => []
  | n, none :: cs => natStr n :: assignIds (n + 1) cs
  | n, some s :: cs => s :: assignIds n cs

/-! ### Personality trait rows (source lines 119-145) -/

def personnality_roll : String :=
  roll ["[[@\x7bPersonality_Trait$$_Score\x7d]] [@\x7bPersonality_Trait$$\x7d]",
        "(?\x7b@\x7bcircumstantial_i18n\x7d|0\x7d) [@\x7bcircumstances_i18n\x7d]"]

def personnality_template : RollTemplate :=
  rolltemplate "generic"
    [("Banner", "^\x7bpersonality\x7d ^\x7broll\x7d"),
     ("Label", "@\x7bPersonality_Trait$$\x7d"),
     ("Result", "[[ %(die)s + " ++ personnality_roll ++ " ]]")]

/-- The dedented row template of source lines 132-141. -/
def personality_row : String :=
  "<tr>\n    <td><input type=\"text\" class=\"heading_2\" style=\"width:245px\" name=\"attr_Personality_Trait$$\"/></td>\n    <td><input type=\"text\" class=\"number_1\" style=\"width:70px;\" name=\"attr_Personality_Trait$$_score\"/></td>\n    <td><div class=\"flex-container\">\n        <button type=\"roll\" class=\"button simple-roll\" name=\"roll_personality$$_simple\" value=\"" ++
  personnality_template.simple ++
  "\"></button>\n        <button type=\"roll\" class=\"button stress-roll\" name=\"roll_personality$$_stress\" value=\"" ++
  personnality_template.stress ++
  "\"></button>\n    </div></td>\n</tr>"

/-- `range(1, 7)` rendered as substitution values. -/
def pvals : List String := (List.range' 1 6).map natStr

/-- `GLOBALS["personality_trait_rows"]` (source lines 131-145). -/
def personality_trait_rows : String :=
  repeat_template personality_row pvals "$$"

/-! ### The color CSS generator (source lines 578-616) -/

structure ColorDef where
  color : String
  hex : String

/-- Value of one hexadecimal digit, as accepted by Python `int(_, 16)`. -/
def hexDigit? (ch : Char) : Option Nat :=
  if '0' ≤ ch ∧ ch ≤ '9' then some (ch.toNat - 48)
  else if 'a' ≤ ch ∧ ch ≤ 'f' then some (ch.toNat - 87)
  else if 'A' ≤ ch ∧ ch ≤ 'F' then some (ch.toNat - 55)
  else none

def parseHexAux : List Char → Nat → Option Nat
  | [], acc => some acc
  | c :: rest, acc =>
    match hexDigit? c with
    | none => none
    | some d => parseHexAux rest (16 * acc + d)

/-- Model of Python `int(s, 16)` on a plain digit string (`none` models
the `ValueError` on an empty or malformed string). -/
def parseHex : List Char → Option Nat
  | [] => none
  | c :: rest => parseHexAux (c :: rest) 0

/-- `hex.lstrip("#")` and the three two-character slices of source
line 600. -/
def channels? (hexstr : String) : Option (Nat × Nat × Nat) :=
  let s := hexstr.data.dropWhile fun c => c == '#'
  match parseHex (s.take 2), parseHex ((s.drop 2).take 2), parseHex ((s.drop 4).take 2) with
  | some r, some g, some b => some (r, g, b)
  | _, _, _ => none

/-- The luma of source line 603, `0.2126*r + 0.7152*g + 0.0722*b` on the
channels normalized by 255; floats are modelled by exact rationals. -/
def lumaQ (c : ColorDef) : Option ℚ :=
  match channels? c.hex with
  | none => none
  | some (r, g, b) =>
    some ((2126 : ℚ) / 10000 * ((r : ℚ) / 255) + (7152 : ℚ) / 10000 * ((g : ℚ) / 255) +
      (722 : ℚ) / 10000 * ((b : ℚ) / 255))

def hdrSel (c : ColorDef) : String :=
  ".sheet-rolltemplate-custom .sheet-crt-container.sheet-crt-color-" ++ c.color ++
    " \x7b\n    --header-bg-color: "

/-- The two base lines of the header rule (source lines 585-588). -/
def headerLines (c : ColorDef) : String := hdrSel c ++ c.hex ++ ";"

def rlSel (c : ColorDef) : String :=
  ".sheet-rolltemplate-custom .sheet-crt-container.sheet-crt-rlcolor-" ++ c.color ++
    " .inlinerollresult \x7b\n    --roll-bg-color: "

/-- The two base lines of the roll rule (source lines 589-592). -/
def rollLines (c : ColorDef) : String := rlSel c ++ c.hex ++ ";"

def btSel (c : ColorDef) : String :=
  ".sheet-rolltemplate-custom .sheet-crt-container.sheet-crt-btcolor-" ++ c.color ++
    " a \x7b\n    --button-bg-color: "

/-- The two base lines of the button rule (source lines 593-596). -/
def buttonLines (c : ColorDef) : String := btSel c ++ c.hex ++ ";"

/-- The three CSS rule blocks generated for one color row (source lines
583-614): text-color overrides are appended to the header and button
blocks when the luma is above 1/2 and to the roll block when it is
below; `none` models the `ValueError` from an unparsable hex value. -/
def colorBlocks (c : ColorDef) : Option (List String) :=
  match lumaQ c with
  | none => none
  | some L =>
    some [headerLines c ++ (if L > 1 / 2 then "\n    --header-text-color: #000;" else "") ++ "\n\x7d",
          rollLines c ++ (if L < 1 / 2 then "\n    --roll-text-color: #FFF;" else "") ++ "\n\x7d",
          buttonLines c ++ (if L > 1 / 2 then "\n    --button-text-color: #000;" else "") ++ "\n\x7d"]

/-- The per-row loop of the reader (source lines 582-614); an error on
any row aborts the generation. -/
def mapBlocks : List ColorDef → Option (List (List String))
  | [] => some []
  | c :: rest =>
    match colorBlocks c, mapBlocks rest with
    | some bs, some bss => some (bs :: bss)
    | _, _ => none

/-- `GLOBALS["custom_rt_color_css"]` (source line 616): all rule blocks
joined with newlines. -/
def custom_rt_color_css (colors : List ColorDef) : Option String :=
  match mapBlocks colors with
  | none => none
  | some bss => some (joinSep "\n" bss.flatten)

def cWhite : ColorDef := ⟨"white", "#FFFFFF"⟩

def cBlack : ColorDef := ⟨"black", "#000000"⟩

/-! ### Bit-exact model of the double luma (source line 603)

Python evaluates the luma of source line 603 in IEEE-754 doubles.  All
values of that expression are nonnegative and far from overflow and
underflow, so a double here is a dyadic rational `m / 2^d` with a
mantissa `m` of at most 53 bits, and every operation rounds its exact
result to the nearest such number, ties to even.  The pair `(m, d)`
below stands for `m / 2^d`. -/

/-- Round `num / den` to the nearest integer, ties to even. -/
def rdiv (num den : Nat) : Nat :=
  if 2 * (num % den) < den then num / den
  else if den < 2 * (num % den) then num / den + 1
  else if num / den % 2 = 0 then num / den else num / den + 1

/-- Smallest scale `s` with `2^52 * den ≤ num * 2^s` (fuel-bounded). -/
def flScaleAux (num den : Nat) : Nat → Nat → Nat
  | 0, s => s
  | fuel + 1, s => if 2 ^ 52 * den ≤ num * 2 ^ s then s else flScaleAux num den fuel (s + 1)

/-- Round the nonnegative rational `num / den` to the nearest double:
scale into the mantissa range `[2^52, 2^53)` and round, ties to even. -/
def flQ (num den : Nat) : Nat × Nat :=
  if num = 0 then (0, 0)
  else
    (rdiv (num * 2 ^ flScaleAux num den 100 0) den, flScaleAux num den 100 0)

/-- Smallest `k` with `m < 2^53 * 2^k` (fuel-bounded). -/
def dropBitsAux (m : Nat) : Nat → Nat → Nat
  | 0, k => k
  | fuel + 1, k => if m < 2 ^ 53 * 2 ^ k then k else dropBitsAux m fuel (k + 1)

/-- Round the dyadic rational `m / 2^d` back to a 53-bit mantissa. -/
def flDy (m d : Nat) : Nat × Nat :=
  if m = 0 then (0, 0)
  else if dropBitsAux m 100 0 = 0 then (m, d)
  else (rdiv m (2 ^ dropBitsAux m 100 0), d - dropBitsAux m 100 0)

/-- Double multiplication: exact product, then one rounding. -/
def mulDy (a b : Nat × Nat) : Nat × Nat := flDy (a.1 * b.1) (a.2 + b.2)

/-- Double addition: exact sum on a common exponent, then one rounding. -/
def addDy (a b : Nat × Nat) : Nat × Nat :=
  flDy (a.1 * 2 ^ (max a.2 b.2 - a.2) + b.1 * 2 ^ (max a.2 b.2 - b.2)) (max a.2 b.2)

/-- The double luma of source line 603,
`0.2126 * (r/255) + 0.7152 * (g/255) + 0.0722 * (b/255)`, with the
decimal literals rounded to doubles, Python's left-to-right evaluation
and one rounding per operation. -/
def lumaFloat (r g b : Nat) : Nat × Nat :=
  addDy
    (addDy (mulDy (flQ 2126 10000) (flQ r 255)) (mulDy (flQ 7152 10000) (flQ g 255)))
    (mulDy (flQ 722 10000) (flQ b 255))

/-- The three CSS rule blocks of one color row (source lines 583-614)
with the text-color branches of lines 604-609 decided on the bit-exact
double luma: for the double `m / 2^d`, `luma > 0.5` is `2^d < 2*m` and
`luma < 0.5` is `2*m < 2^d` (0.5 is itself a double, so the float
comparisons are exact). -/
def colorBlocksF (c : ColorDef) : Option (List String) :=
  match channels? c.hex with
  | none => none
  | some (r, g, b) =>
    some [headerLines c ++
            (if 2 ^ (lumaFloat r g b).2 < 2 * (lumaFloat r g b).1 then
              "\n    --header-text-color: #000;" else "") ++ "\n\x7d",
          rollLines c ++
            (if 2 * (lumaFloat r g b).1 < 2 ^ (lumaFloat r g b).2 then
              "\n    --roll-text-color: #FFF;" else "") ++ "\n\x7d",
          buttonLines c ++
            (if 2 ^ (lumaFloat r g b).2 < 2 * (lumaFloat r g b).1 then
              "\n    --button-text-color: #000;" else "") ++ "\n\x7d"]

/-- A color whose computed double luma is exactly 0.5: in IEEE doubles,
`0.2126*(47/255) + 0.7152*(143/255) + 0.0722*(211/255)` evaluates to
exactly 0.5 (47 = 0x2F, 143 = 0x8F, 211 = 0xD3). -/
def cHalfF : ColorDef := ⟨"steel", "#2F8FD3"⟩

/-! ### The documentation conversion (source lines 568-575) -/

inductive DocNode where
  | heading (level : Nat) (cls : String) (text : String)
  | para (text : String)
deriving DecidableEq

/-- Modelled from the spec: the external `markdown` library converts "a
documentation text file in a lightweight markup format" to HTML
(spec 6); a single `# Heading` line becomes a level-1 heading element
with no class. -/
def markdownConvert (line : String) : DocNode :=
  if ("# ").data.isPrefixOf line.data then
    DocNode.heading 1 "" (String.mk (line.data.drop 2))
  else
    DocNode.para line

/-- The class annotation loop of source lines 572-574:
`tag.attrs["class"] = tag.get("class", "") + " heading_label"`. -/
def addHeadingClass : DocNode → DocNode
  | DocNode.heading lvl cls text => DocNode.heading lvl (cls ++ " heading_label") text
  | n => n

/-- The documentation pipeline: markdown conversion, then the heading
class annotation (source lines 568-575). -/
def documentation (line : String) : DocNode :=
  addHeadingClass (markdownConvert line)

def wHeaderBlock : String :=
  ".sheet-rolltemplate-custom .sheet-crt-container.sheet-crt-color-white \x7b\n    --header-bg-color: #FFFFFF;\n    --header-text-color: #000;\n\x7d"

def wRollBlock : String :=
  ".sheet-rolltemplate-custom .sheet-crt-container.sheet-crt-rlcolor-white .inlinerollresult \x7b\n    --roll-bg-color: #FFFFFF;\n\x7d"

def wButtonBlock : String :=
  ".sheet-rolltemplate-custom .sheet-crt-container.sheet-crt-btcolor-white a \x7b\n    --button-bg-color: #FFFFFF;\n    --button-text-color: #000;\n\x7d"

/-- The three rule blocks emitted for the white color row. -/
def wBlocks : List String := [wHeaderBlock, wRollBlock, wButtonBlock]

/-- The three rule blocks emitted for the black color row. -/
def bBlocks : List String :=
  [".sheet-rolltemplate-custom .sheet-crt-container.sheet-crt-color-black \x7b\n    --header-bg-color: #000000;\n\x7d",
   ".sheet-rolltemplate-custom .sheet-crt-container.sheet-crt-rlcolor-black .inlinerollresult \x7b\n    --roll-bg-color: #000000;\n    --roll-text-color: #FFF;\n\x7d",
   ".sheet-rolltemplate-custom .sheet-crt-container.sheet-crt-btcolor-black a \x7b\n    --button-bg-color: #000000;\n\x7d"]

/-! ## Helper lemmas -/

theorem sappend_assoc (a b c : String) : a ++ b ++ c = a ++ (b ++ c) :=
  String.append_assoc a b c

/-- A prefix of `A ++ b` no longer than `A` is a prefix of `A`. -/
theorem pref_of_pref_append (t A b : List Char) (h : t <+: A ++ b)
    (hlen : t.length ≤ A.length) : t <+: A := by
  obtain ⟨u, hu⟩ := h
  have h1 : t = (A ++ b).take t.length := by
    rw [← hu, List.take_left]
  rw [List.take_append_of_le_length hlen] at h1
  have h2 := List.take_append_drop t.length A
  rw [← h1] at h2
  exact ⟨A.drop t.length, h2⟩

/-- A prefix of `A ++ b` longer than `A` covers `A` and continues into `b`. -/
theorem span_split (t A b : List Char) (h : t <+: A ++ b)
    (hlt : A.length < t.length) : t.take A.length = A ∧ t.drop A.length <+: b := by
  obtain ⟨u, hu⟩ := h
  constructor
  · have h2 : (t ++ u).take A.length = t.take A.length :=
      List.take_append_of_le_length (Nat.le_of_lt hlt)
    rw [hu, List.take_left] at h2
    exact h2.symm
  · have h3 : (t ++ u).drop A.length = t.drop A.length ++ u :=
      List.drop_append_of_le_length (Nat.le_of_lt hlt)
    rw [hu, List.drop_left] at h3
    exact ⟨u, h3.symm⟩

/-- Occurrence counting distributes over an append with no cross-boundary
occurrence. -/
theorem countOccAux_append (t : List Char) :
    ∀ a b : List Char,
      (∀ k, 0 < k → k < t.length → ¬ ((t.take k <:+ a) ∧ (t.drop k <+: b))) →
      countOccAux t (a ++ b) = countOccAux t a + countOccAux t b := by
  intro a
  induction a with
  | nil => intro b _; simp [countOccAux]
  | cons c a' ih =>
    intro b hspan
    have hTail : ∀ k, 0 < k → k < t.length → ¬ ((t.take k <:+ a') ∧ (t.drop k <+: b)) := by
      intro k hk0 hk hand
      obtain ⟨⟨u, hu⟩, hp⟩ := hand
      exact hspan k hk0 hk ⟨⟨c :: u, by rw [List.cons_append, hu]⟩, hp⟩
    have hiff : t.isPrefixOf (c :: (a' ++ b)) = t.isPrefixOf (c :: a') := by
      cases hpb : t.isPrefixOf (c :: a') with
      | true =>
        have hpre : t <+: c :: a' := by simpa using hpb
        obtain ⟨u, hu⟩ := hpre
        have hq : t <+: c :: (a' ++ b) :=
          ⟨u ++ b, by rw [← List.cons_append, ← List.append_assoc, hu]⟩
        simpa using hq
      | false =>
        cases hq : t.isPrefixOf (c :: (a' ++ b)) with
        | false => rfl
        | true =>
          exfalso
          have hqb : t <+: (c :: a') ++ b := by
            have h0 : t <+: c :: (a' ++ b) := by simpa using hq
            exact h0
          by_cases hlen : t.length ≤ (c :: a').length
          · have hcontained := pref_of_pref_append t (c :: a') b hqb hlen
            have hT : t.isPrefixOf (c :: a') = true := by simpa using hcontained
            rw [hpb] at hT
            exact absurd hT (by decide)
          · have hlt : (c :: a').length < t.length := Nat.lt_of_not_le hlen
            obtain ⟨h1, h2⟩ := span_split t (c :: a') b hqb hlt
            refine hspan (c :: a').length (by simp) hlt ⟨?_, h2⟩
            rw [h1]
    show (if t.isPrefixOf (c :: (a' ++ b)) then 1 else 0) + countOccAux t (a' ++ b)
        = ((if t.isPrefixOf (c :: a') then 1 else 0) + countOccAux t a') + countOccAux t b
    rw [hiff, ih b hTail]
    omega

theorem spanFreeB_sound {t a b : List Char} (h : spanFreeB t a b = true) :
    ∀ k, 0 < k → k < t.length → ¬ ((t.take k <:+ a) ∧ (t.drop k <+: b)) := by
  intro k hk0 hk hand
  have hmem : k ∈ List.range t.length := List.mem_range.mpr hk
  have hall := List.all_eq_true.mp h k hmem
  simp only [Bool.or_eq_true, beq_iff_eq, Bool.not_eq_true',
    Bool.and_eq_false_iff] at hall
  rcases hall with h0 | hb | hb
  · omega
  · have hX : (t.take k).isSuffixOf a = true := by simpa using hand.1
    rw [hb] at hX
    exact absurd hX (by decide)
  · have hX : (t.drop k).isPrefixOf b = true := by simpa using hand.2
    rw [hb] at hX
    exact absurd hX (by decide)

/-- Occurrence counting over a flattened list of pieces with no
cross-junction occurrence is the sum of the per-piece counts. -/
theorem countOccAux_flatten (t : List Char) :
    ∀ ps : List (List Char), noCrossB t ps = true →
      countOccAux t ps.flatten = (ps.map (countOccAux t)).sum := by
  intro ps
  induction ps with
  | nil => intro _; rfl
  | cons p ps ih =>
    intro h
    simp only [noCrossB, Bool.and_eq_true] at h
    obtain ⟨h1, h2⟩ := h
    rw [List.flatten_cons, countOccAux_append t p ps.flatten (spanFreeB_sound h1), ih h2]
    simp

theorem sum_map_ones {β : Type} (F : β → Nat) :
    ∀ l : List β, (∀ x ∈ l, F x = 1) → (l.map F).sum = l.length := by
  intro l
  induction l with
  | nil => intro _; rfl
  | cons x xs ih =>
    intro h
    simp only [List.map_cons, List.sum_cons, List.length_cons]
    rw [h x (by simp), ih (fun y hy => h y (by simp [hy]))]
    omega

theorem concatAll_data : ∀ l : List String, (concatAll l).data = (l.map String.data).flatten := by
  intro l
  induction l with
  | nil => rfl
  | cons s rest ih => simp [concatAll, ih]

/-! ### Decimal numerals -/

theorem digit_toNat : ∀ d : Nat, d < 10 → (Char.ofNat (48 + d)).toNat = 48 + d := by decide

theorem natStrAux_succ (fuel n : Nat) (acc : List Char) :
    natStrAux (fuel + 1) n acc =
      if n < 10 then Char.ofNat (48 + n % 10) :: acc
      else natStrAux fuel (n / 10) (Char.ofNat (48 + n % 10) :: acc) := rfl

theorem charsVal_cons (a : Nat) (c : Char) (rest : List Char) :
    charsVal a (c :: rest) = charsVal (10 * a + (c.toNat - 48)) rest := rfl

theorem charsVal_natStrAux :
    ∀ (fuel n : Nat) (acc : List Char) (a : Nat), n < fuel →
      ∃ t, n < t ∧ charsVal a (natStrAux fuel n acc) = charsVal (a * t + n) acc := by
  intro fuel
  induction fuel with
  | zero => intro n acc a h; omega
  | succ fuel ih =>
    intro n acc a _
    by_cases hn : n < 10
    · refine ⟨10, hn, ?_⟩
      have hd : (Char.ofNat (48 + n % 10)).toNat = 48 + n % 10 :=
        digit_toNat (n % 10) (Nat.mod_lt n (by omega))
      rw [natStrAux_succ, if_pos hn, charsVal_cons, hd]
      have harg : 10 * a + (48 + n % 10 - 48) = a * 10 + n := by
        have hnn : n % 10 = n := Nat.mod_eq_of_lt hn
        omega
      rw [harg]
    · have hfuel : n / 10 < fuel := by
        have h10 : n / 10 < n := Nat.div_lt_self (by omega) (by omega)
        omega
      obtain ⟨t', ht', heq⟩ := ih (n / 10) (Char.ofNat (48 + n % 10) :: acc) a hfuel
      refine ⟨10 * t', by omega, ?_⟩
      have hd : (Char.ofNat (48 + n % 10)).toNat = 48 + n % 10 :=
        digit_toNat (n % 10) (Nat.mod_lt n (by omega))
      rw [natStrAux_succ, if_neg hn, heq, charsVal_cons, hd]
      have hring : a * (10 * t') = 10 * (a * t') := by ring
      have harg : 10 * (a * t' + n / 10) + (48 + n % 10 - 48) = a * (10 * t') + n := by
        rw [hring]
        omega
      rw [harg]

theorem charsVal_natStr (n : Nat) : charsVal 0 (natStr n).data = n := by
  obtain ⟨t, _, h⟩ := charsVal_natStrAux (n + 1) n [] 0 (Nat.lt_succ_self n)
  have h0 : (natStr n).data = natStrAux (n + 1) n [] := rfl
  rw [h0, h]
  show 0 * t + n = n
  omega

theorem natStr_inj : Function.Injective natStr := by
  intro m n h
  have h2 : charsVal 0 (natStr m).data = charsVal 0 (natStr n).data := by rw [h]
  rwa [charsVal_natStr, charsVal_natStr] at h2

/-! ### Luma and color-block helpers -/

theorem lumaQ_white : lumaQ cWhite = some 1 := by
  have hc : channels? cWhite.hex = some (255, 255, 255) := by decide
  simp [lumaQ, hc]
  norm_num

theorem lumaQ_black : lumaQ cBlack = some 0 := by
  have hc : channels? cBlack.hex = some (0, 0, 0) := by decide
  simp [lumaQ, hc]

theorem colorBlocks_gt (c : ColorDef) (L : ℚ) (hL : lumaQ c = some L) (h : L > 1 / 2) :
    colorBlocks c =
      some [headerLines c ++ "\n    --header-text-color: #000;" ++ "\n\x7d",
            rollLines c ++ "\n\x7d",
            buttonLines c ++ "\n    --button-text-color: #000;" ++ "\n\x7d"] := by
  simp only [colorBlocks, hL]
  rw [if_pos h, if_neg (lt_asymm h), if_pos h, String.append_empty]

theorem colorBlocks_lt (c : ColorDef) (L : ℚ) (hL : lumaQ c = some L) (h : L < 1 / 2) :
    colorBlocks c =
      some [headerLines c ++ "\n\x7d",
            rollLines c ++ "\n    --roll-text-color: #FFF;" ++ "\n\x7d",
            buttonLines c ++ "\n\x7d"] := by
  simp only [colorBlocks, hL]
  rw [if_neg (lt_asymm h), if_pos h, if_neg (lt_asymm h), String.append_empty,
    String.append_empty]

/-- The hex value sits inside each generated block. -/
theorem hex_infix (p s q r1 r2 : String) :
    s.data <:+: ((((p ++ s) ++ q) ++ r1) ++ r2).data := by
  refine ⟨p.data, q.data ++ r1.data ++ r2.data, ?_⟩
  simp

/-! ### Alert helpers -/

theorem alertStep_none (st : AlertState) : alertStep st none = ⟨st.numid + 1, st.strid⟩ := rfl

theorem alertStep_some (st : AlertState) (s : String) :
    alertStep st (some s) = ⟨st.numid, st.strid ++ [s]⟩ := rfl

theorem runAlerts_cons (c : Option String) (cs : List (Option String)) (st : AlertState) :
    runAlerts (c :: cs) st = runAlerts cs (alertStep st c) := rfl

theorem alert_ok_none (title text level : String) (st : AlertState)
    (h : level ∈ (["info", "warning"] : List String)) :
    alertF title text level none st
      = Except.ok (alertHtml level title (natStr st.numid) text, ⟨st.numid + 1, st.strid⟩) := by
  simp [alertF, h]

theorem alert_ok_some (title text level s : String) (st : AlertState)
    (h : level ∈ (["info", "warning"] : List String)) :
    alertF title text level (some s) st
      = Except.ok (alertHtml level title s text, ⟨st.numid, st.strid ++ [s]⟩) := by
  simp [alertF, h]

theorem runAlerts_eq : ∀ (cs : List (Option String)) (n : Nat) (l : List String),
    runAlerts cs ⟨n, l⟩ = ⟨n + countNone cs, l ++ explicitIds cs⟩ := by
  intro cs
  induction cs with
  | nil =>
    intro n l
    show (⟨n, l⟩ : AlertState) = ⟨n + countNone [], l ++ explicitIds []⟩
    simp [countNone, explicitIds]
  | cons c cs ih =>
    intro n l
    cases c with
    | none =>
      rw [runAlerts_cons, alertStep_none]
      show runAlerts cs ⟨n + 1, l⟩ = _
      rw [ih]
      have h1 : countNone (none :: cs) = countNone cs + 1 := rfl
      have h2 : explicitIds (none :: cs) = explicitIds cs := rfl
      rw [h1, h2]
      have h3 : n + 1 + countNone cs = n + (countNone cs + 1) := by omega
      rw [h3]
    | some s =>
      rw [runAlerts_cons, alertStep_some]
      show runAlerts cs ⟨n, l ++ [s]⟩ = _
      rw [ih]
      have h1 : countNone (some s :: cs) = countNone cs := rfl
      have h2 : explicitIds (some s :: cs) = s :: explicitIds cs := rfl
      rw [h1, h2, List.append_assoc]
      rfl

theorem assignIds_perm : ∀ (cs : List (Option String)) (n : Nat),
    (assignIds n cs).Perm ((List.range' n (countNone cs)).map natStr ++ explicitIds cs) := by
  intro cs
  induction cs with
  | nil => intro n; simp [assignIds, countNone, explicitIds]
  | cons c cs ih =>
    intro n
    cases c with
    | none =>
      show (natStr n :: assignIds (n + 1) cs).Perm _
      have hr : List.range' n (countNone (none :: cs))
          = n :: List.range' (n + 1) (countNone cs) := by
        have h1 : countNone (none :: cs) = countNone cs + 1 := rfl
        rw [h1, List.range'_succ]
      rw [hr]
      have h2 : explicitIds (none :: cs) = explicitIds cs := rfl
      rw [h2, List.map_cons, List.cons_append]
      exact (ih (n + 1)).cons (natStr n)
    | some s =>
      show (s :: assignIds n cs).Perm _
      have h1 : countNone (some s :: cs) = countNone cs := rfl
      have h2 : explicitIds (some s :: cs) = s :: explicitIds cs := rfl
      rw [h1, h2]
      have h3 := (ih n).cons s
      exact h3.trans List.perm_middle.symm

/-! ## Claims -/

/-- C1: the spec says the luma choice applies uniformly to the generated
rule blocks of a color; in the code a luma above 1/2 sets black text
only on the header and button blocks (the roll block gets no override),
and a luma below 1/2 sets white text only on the roll block.  This is
the amended statement. -/
theorem luma_text_color (c : ColorDef) (L : ℚ) (hL : lumaQ c = some L) :
    (L > 1 / 2 →
      colorBlocks c =
        some [headerLines c ++ "\n    --header-text-color: #000;" ++ "\n\x7d",
              rollLines c ++ "\n\x7d",
              buttonLines c ++ "\n    --button-text-color: #000;" ++ "\n\x7d"]) ∧
    (L < 1 / 2 →
      colorBlocks c =
        some [headerLines c ++ "\n\x7d",
              rollLines c ++ "\n    --roll-text-color: #FFF;" ++ "\n\x7d",
              buttonLines c ++ "\n\x7d"]) :=
  ⟨colorBlocks_gt c L hL, colorBlocks_lt c L hL⟩

theorem luma_text_color_witness :
    (lumaQ cWhite = some 1 ∧ (1 : ℚ) > 1 / 2 ∧ colorBlocks cWhite = some wBlocks) ∧
    (lumaQ cBlack = some 0 ∧ (0 : ℚ) < 1 / 2 ∧ colorBlocks cBlack = some bBlocks) := by
  constructor
  · refine ⟨lumaQ_white, by norm_num, ?_⟩
    rw [(luma_text_color cWhite 1 lumaQ_white).1 (by norm_num)]
    rfl
  · refine ⟨lumaQ_black, by norm_num, ?_⟩
    rw [(luma_text_color cBlack 0 lumaQ_black).2 (by norm_num)]
    rfl

/-- C1 as stated is false: the white row has luma 1 > 1/2, yet not every
one of its three generated rule blocks selects black text — the roll
block contains no `#000` at all. -/
theorem luma_uniform_counterexample :
    lumaQ cWhite = some 1 ∧ (1 : ℚ) > 1 / 2 ∧
    ¬ (∀ bs, colorBlocks cWhite = some bs → ∀ b ∈ bs, 0 < countOcc "#000" b) := by
  refine ⟨lumaQ_white, by norm_num, fun hall => ?_⟩
  have hcb : colorBlocks cWhite = some wBlocks := by
    rw [colorBlocks_gt cWhite 1 lumaQ_white (by norm_num)]
    rfl
  have hmem : wRollBlock ∈ wBlocks := by decide
  have h2 := hall wBlocks hcb wRollBlock hmem
  have h3 : countOcc "#000" wRollBlock = 0 := by decide
  omega

/-- C2: repeating a template over an enumeration yields one occurrence of
the static text per entry: if each instantiated copy contains the text
exactly once and no occurrence crosses a junction of adjacent copies,
the total count equals the number of entries. -/
theorem repeat_template_count (tmpl key t : String) (vals : List String)
    (h1 : ∀ v ∈ vals, countOcc t (Sreplace tmpl key v) = 1)
    (h2 : noCrossB t.data (vals.map fun v => (Sreplace tmpl key v).data) = true) :
    countOcc t (repeat_template tmpl vals key) = vals.length := by
  unfold countOcc repeat_template
  rw [concatAll_data]
  have hmaps : (vals.map fun v => Sreplace tmpl key v).map String.data
      = vals.map fun v => (Sreplace tmpl key v).data := by
    rw [List.map_map]
    rfl
  rw [hmaps, countOccAux_flatten t.data _ h2]
  have h3 : ∀ x ∈ vals.map fun v => (Sreplace tmpl key v).data, countOccAux t.data x = 1 := by
    intro x hx
    obtain ⟨v, hv, rfl⟩ := List.mem_map.mp hx
    exact h1 v hv
  rw [sum_map_ones (countOccAux t.data) _ h3, List.length_map]

theorem repeat_template_count_witness :
    (∀ v ∈ pvals, countOcc "<tr>" (Sreplace personality_row "$$" v) = 1) ∧
    noCrossB "<tr>".data (pvals.map fun v => (Sreplace personality_row "$$" v).data) = true ∧
    countOcc "<tr>" personality_trait_rows = 6 := by
  refine ⟨by decide, by decide, ?_⟩
  have h := repeat_template_count personality_row "$$" "<tr>" pvals (by decide) (by decide)
  show countOcc "<tr>" (repeat_template personality_row pvals "$$") = 6
  rw [h]
  decide

/-- C3: a level outside of info and warning is rejected with the
ValueError message before any banner HTML is produced, and the ID state
of a rejected call is unchanged. -/
theorem alert_invalid_level (title text level : String) (ID : Option String) (st : AlertState)
    (h : level ∉ (["info", "warning"] : List String)) :
    alertF title text level ID st = Except.error "Level must be among 'info', 'warning'" ∧
    (((alertF title text level ID st).toOption).map Prod.snd).getD st = st := by
  have he : alertF title text level ID st
      = Except.error "Level must be among 'info', 'warning'" := by
    simp [alertF, h]
  refine ⟨he, ?_⟩
  rw [he]
  rfl

theorem alert_invalid_level_witness :
    ("error" ∉ (["info", "warning"] : List String)) ∧
    alertF "t" "b" "error" none ⟨0, []⟩
      = Except.error "Level must be among 'info', 'warning'" ∧
    (((alertF "t" "b" "error" none ⟨0, []⟩).toOption).map Prod.snd).getD ⟨0, []⟩
      = (⟨0, []⟩ : AlertState) := by
  refine ⟨by decide, ?_, ?_⟩
  · exact (alert_invalid_level "t" "b" "error" none ⟨0, []⟩ (by decide)).1
  · exact (alert_invalid_level "t" "b" "error" none ⟨0, []⟩ (by decide)).2

/-- C4: the generation operations are deterministic as functions of
their arguments and prior state, but the banner helper is not
side-effect-free: a successful call with `ID=None` increments the
numeric counter and a call with an explicit ID appends to the string-ID
list.  This is the amended statement. -/
theorem alert_state_effect (title text level : String) (st : AlertState)
    (h : level ∈ (["info", "warning"] : List String)) :
    ((alertF title text level none st).toOption.map Prod.snd
      = some ⟨st.numid + 1, st.strid⟩) ∧
    ∀ s : String, (alertF title text level (some s) st).toOption.map Prod.snd
      = some ⟨st.numid, st.strid ++ [s]⟩ := by
  constructor
  · rw [alert_ok_none title text level st h]
    rfl
  · intro s
    rw [alert_ok_some title text level s st h]
    rfl

theorem alert_state_effect_witness :
    ("warning" ∈ (["info", "warning"] : List String)) ∧
    ((alertF "t" "b" "warning" none ⟨0, []⟩).toOption.map Prod.snd
      = some (⟨1, []⟩ : AlertState)) ∧
    (alertF "t" "b" "warning" (some "a") ⟨0, []⟩).toOption.map Prod.snd
      = some (⟨0, ["a"]⟩ : AlertState) := by
  refine ⟨by decide, ?_, ?_⟩
  · exact (alert_state_effect "t" "b" "warning" ⟨0, []⟩ (by decide)).1
  · exact (alert_state_effect "t" "b" "warning" ⟨0, []⟩ (by decide)).2 "a"

/-- C4 as stated is false: calling the banner helper twice with the same
arguments does not leave the ID state unchanged and does not return the
same string. -/
theorem generation_not_stateless :
    ((alertF "t" "b" "warning" none ⟨0, []⟩).toOption.map Prod.snd
      ≠ some (⟨0, []⟩ : AlertState)) ∧
    (alertF "t" "b" "warning" none ⟨1, []⟩).toOption.map Prod.fst
      ≠ (alertF "t" "b" "warning" none ⟨0, []⟩).toOption.map Prod.fst := by
  exact ⟨by decide, by decide⟩

/-- C5: every color row with a parsable hex value yields exactly three
rule blocks (header, roll, button), each carrying the row's hex value. -/
theorem color_three_blocks (c : ColorDef) (bs : List String) (h : colorBlocks c = some bs) :
    bs.length = 3 ∧ ∀ b ∈ bs, c.hex.data <:+: b.data := by
  revert h
  unfold colorBlocks
  cases hL : lumaQ c with
  | none => intro h; exact Option.noConfusion h
  | some L =>
    intro h
    injection h with h
    subst h
    refine ⟨rfl, ?_⟩
    intro b hb
    simp only [List.mem_cons, List.not_mem_nil, or_false] at hb
    rcases hb with rfl | rfl | rfl
    · exact hex_infix (hdrSel c) c.hex ";" _ "\n\x7d"
    · exact hex_infix (rlSel c) c.hex ";" _ "\n\x7d"
    · exact hex_infix (btSel c) c.hex ";" _ "\n\x7d"

theorem color_three_blocks_witness :
    colorBlocks cBlack = some bBlocks ∧
    bBlocks.length = 3 ∧ ∀ b ∈ bBlocks, cBlack.hex.data <:+: b.data := by
  have h : colorBlocks cBlack = some bBlocks := by
    rw [colorBlocks_lt cBlack 0 lumaQ_black (by norm_num)]
    rfl
  exact ⟨h, color_three_blocks cBlack bBlocks h⟩

/-- C6: with no color rows, the generated color CSS is the empty string. -/
theorem color_css_empty : custom_rt_color_css [] = some "" := rfl

/-- C7: repeating any template over an empty substitution sequence
yields the empty string. -/
theorem repeat_template_empty (template rep_key : String) :
    repeat_template template [] rep_key = "" := rfl

/-- C8: the documentation conversion on a single hash-heading line
yields an h1 element whose class carries the added styling class
`heading_label`. -/
theorem documentation_heading_class :
    documentation "# Heading" = DocNode.heading 1 " heading_label" "Heading" := by
  decide

/-- C9: after a sequence of successful banner calls whose explicit
string IDs are pairwise distinct and distinct from the decimal numerals
of the numeric counter values (the documented "Do NOT use numbers"
restriction), the assigned banner IDs are pairwise distinct and
`disable_old_alerts` lists exactly one entry per banner — the numeric
IDs and the recorded string IDs — and no others.  This is the amended
statement. -/
theorem alert_ids_spec (cs : List (Option String))
    (h1 : (explicitIds cs).Nodup)
    (h2 : ∀ s ∈ explicitIds cs, ∀ k, k < countNone cs → s ≠ natStr k) :
    (assignIds 0 cs).Nodup ∧
    (disableIds (runAlerts cs ⟨0, []⟩)).Perm (assignIds 0 cs) := by
  have hrun : runAlerts cs ⟨0, []⟩ = ⟨countNone cs, explicitIds cs⟩ := by
    rw [runAlerts_eq]
    simp
  have hperm := assignIds_perm cs 0
  have hR : disableIds ⟨countNone cs, explicitIds cs⟩
      = (List.range' 0 (countNone cs)).map natStr ++ explicitIds cs := by
    simp [disableIds, List.range_eq_range']
  have hnodupR : ((List.range' 0 (countNone cs)).map natStr ++ explicitIds cs).Nodup := by
    apply List.Nodup.append
    · refine List.Nodup.map natStr_inj ?_
      rw [← List.range_eq_range']
      exact List.nodup_range _
    · exact h1
    · intro a ha hb
      obtain ⟨k, hk, rfl⟩ := List.mem_map.mp ha
      have hklt : k < countNone cs := by
        rw [← List.range_eq_range'] at hk
        exact List.mem_range.mp hk
      exact h2 _ hb k hklt rfl
  constructor
  · exact hperm.nodup_iff.mpr hnodupR
  · rw [hrun, hR]
    exact hperm.symm

theorem alert_ids_spec_witness :
    ((explicitIds [none, some "a", none]).Nodup ∧
      (∀ s ∈ explicitIds [none, some "a", none],
        ∀ k, k < countNone [none, some "a", none] → s ≠ natStr k)) ∧
    (assignIds 0 [none, some "a", none]).Nodup ∧
    (disableIds (runAlerts [none, some "a", none] ⟨0, []⟩)).Perm
      (assignIds 0 [none, some "a", none]) := by
  refine ⟨⟨by decide, by decide⟩, ?_, ?_⟩
  · exact (alert_ids_spec [none, some "a", none] (by decide) (by decide)).1
  · exact (alert_ids_spec [none, some "a", none] (by decide) (by decide)).2

/-- C9 as stated is false: an explicit string ID `"0"` collides with the
numeric ID of an `ID=None` banner, so the assigned IDs are not pairwise
distinct and `disable_old_alerts` lists the same entry twice. -/
theorem alert_ids_counterexample :
    ¬ (assignIds 0 [none, some "0"]).Nodup ∧
    disableIds (runAlerts [none, some "0"] ⟨0, []⟩) = ["0", "0"] :=
  ⟨by decide, by decide⟩

/-- C10: when the double luma the program computes for a color row is
exactly 0.5, neither strict branch of source lines 604-609 fires, so
none of the three rule blocks carries a text-color override.  The luma
is the bit-exact IEEE-double value of source line 603 (the double
`m / 2^d` equals 0.5 exactly when `2*m = 2^d`). -/
theorem luma_half_no_override (c : ColorDef) (r g b : Nat)
    (hc : channels? c.hex = some (r, g, b))
    (hL : 2 * (lumaFloat r g b).1 = 2 ^ (lumaFloat r g b).2) :
    colorBlocksF c =
      some [headerLines c ++ "\n\x7d", rollLines c ++ "\n\x7d", buttonLines c ++ "\n\x7d"] := by
  have h1 : ¬ (2 ^ (lumaFloat r g b).2 < 2 * (lumaFloat r g b).1) := by omega
  have h2 : ¬ (2 * (lumaFloat r g b).1 < 2 ^ (lumaFloat r g b).2) := by omega
  simp only [colorBlocksF, hc]
  rw [if_neg h1, if_neg h2, if_neg h1,
    String.append_empty, String.append_empty, String.append_empty]

theorem luma_half_no_override_witness :
    channels? cHalfF.hex = some (47, 143, 211) ∧
    2 * (lumaFloat 47 143 211).1 = 2 ^ (lumaFloat 47 143 211).2 ∧
    colorBlocksF cHalfF =
      some [headerLines cHalfF ++ "\n\x7d", rollLines cHalfF ++ "\n\x7d",
        buttonLines cHalfF ++ "\n\x7d"] ∧
    countOcc "-text-color" (headerLines cHalfF ++ "\n\x7d") = 0 ∧
    countOcc "-text-color" (rollLines cHalfF ++ "\n\x7d") = 0 ∧
    countOcc "-text-color" (buttonLines cHalfF ++ "\n\x7d") = 0 := by
  refine ⟨by decide, by decide, ?_, by decide, by decide, by decide⟩
  exact luma_half_no_override cHalfF 47 143 211 (by decide) (by decide)

end ArsMagica
